import Mathlib

/-!
Verification of the interval-aggregation, sliding-window integration and
report-assembly pipeline of the `ai-book-reader` repository.

The Lean definitions below are a shallow embedding of the Python source:

* `cli.py`                      — `generate_interval_summaries` (grouping loop,
                                  interval numbering), `main` (stage ordering).
* `src/chunk_analyzer.py`       — `analyze_chunk` and its persistence.
* `src/summary_generator.py`    — `generate_interval_summary` and
                                  `_save_interval_summary`.
* `src/output_integrator.py`    — `_sliding_window_integration`,
                                  `_assemble_final_content`, `integrate_output`.

Language-model calls (`llm.invoke`, `with_structured_output`) are modelled as
explicit function parameters returning `Option`/`Except` values: `none`/`.error`
models a raised exception from the completion provider, which the Python code
catches locally.  File-system persistence is modelled as explicit state passing
(a key-indexed store).  Wall-clock fields (`processing_time`, timestamps) and
console printing are omitted: no claim refers to them.
-/

namespace AiBookReader

/-- A chunk analysis record, the dict produced by
`chunk_analyzer.py:analyze_chunk` (keys `chunk_idx`, `has_content`,
`knowledge`, `error`; the `processing_time`/`depth` keys are omitted). -/
structure ChunkRecord where
  chunk_idx : Nat
  has_content : Bool
  knowledge : List String
  error : Option String
deriving DecidableEq, Repr

/-- The flush condition of `cli.py:142`:
`(i + 1) % interval == 0 or i == len(chunks_results) - 1`. -/
def flushAt (T k i : Nat) : Bool :=
  ((i + 1) % k == 0) || (i == T - 1)

/-- The grouping loop of `cli.py:135-145`: walk the chunk results in order,
extending the accumulator with the knowledge of records that
`has_content`, and at each flush point close the accumulator as a group
when it is non-empty (`if interval_knowledge:` at `cli.py:143`). -/
def intervalGroupsAux (k T : Nat) : List ChunkRecord → Nat → List String → List (List String)
  | [], _, _ => []
  | r :: rest, i, acc =>
    let acc2 := if r.has_content then acc ++ r.knowledge else acc
    if flushAt T k i then
      (if acc2.isEmpty then [] else [acc2]) ++ intervalGroupsAux k T rest (i + 1) []
    else
      intervalGroupsAux k T rest (i + 1) acc2

/-- `interval_knowledge_groups` as computed by `cli.py:132-145`. -/
def intervalGroups (chunks_results : List ChunkRecord) (interval : Nat) : List (List String) :=
  intervalGroupsAux interval chunks_results.length chunks_results 0 []

/-- Spec-side counting definition (from the claim wording, for comparison
with `intervalGroups`): the number of flush points at which the accumulated
knowledge is non-empty.  Mirrors the traversal of `cli.py:135-145` but only
counts. -/
def nonemptyFlushCountAux (k T : Nat) : List ChunkRecord → Nat → List String → Nat
  | [], _, _ => 0
  | r :: rest, i, acc =>
    let acc2 := if r.has_content then acc ++ r.knowledge else acc
    if flushAt T k i then
      (if acc2.isEmpty then 0 else 1) + nonemptyFlushCountAux k T rest (i + 1) []
    else
      nonemptyFlushCountAux k T rest (i + 1) acc2

/-- The number of flush points at which the accumulated knowledge is
non-empty, over a whole run. -/
def nonemptyFlushCount (chunks_results : List ChunkRecord) (interval : Nat) : Nat :=
  nonemptyFlushCountAux interval chunks_results.length chunks_results 0 []

/-- The 0-based positions at which the flush condition of `cli.py:142`
holds. -/
def flushPositions (T k : Nat) : List Nat :=
  (List.range T).filter (fun i => flushAt T k i)

/-- Interval numbering of `cli.py:156-157`: group at 0-based position `idx`
in `interval_knowledge_groups` is submitted with interval number `idx + 1`. -/
def intervalNumbers (chunks_results : List ChunkRecord) (interval : Nat) :
    List (Nat × List String) :=
  (intervalGroups chunks_results interval).enum.map (fun p => (p.1 + 1, p.2))

/-- One Completer invocation performed by `_sliding_window_integration`
(`output_integrator.py:152-154`): the 0-based pair index and the two
interval-summary texts the user prompt is built from
(`output_integrator.py:144-149`). -/
structure MergeCall where
  pairIdx : Nat
  left : String
  right : String
deriving DecidableEq, Repr

/-- The fallback concatenation of `output_integrator.py:163`:
`f"## 区间 {i+1} 到 {i+2} 的内容\n\n{summaries[i]}\n\n---\n\n{summaries[i+1]}"`. -/
def fallbackMerge (i : Nat) (a b : String) : String :=
  "## 区间 " ++ toString (i + 1) ++ " 到 " ++ toString (i + 2) ++ " 的内容\n\n" ++
    a ++ "\n\n---\n\n" ++ b

/-- The body of one loop iteration of `_sliding_window_integration`
(`output_integrator.py:140-165`): the Completer call on pair `(i, i+1)`;
`none` models a raised exception, answered by the fallback concatenation. -/
def mergeOut (complete : Nat → String → String → Option String) (i : Nat) (a b : String) :
    String :=
  match complete i a b with
  | some c => c
  | none => fallbackMerge i a b

/-- The loop of `_sliding_window_integration` over adjacent summary pairs,
returning the integrated sections together with the Completer calls made. -/
def swIntegrationLoop (complete : Nat → String → String → Option String) :
    Nat → List String → List String × List MergeCall
  | _, [] => ([], [])
  | _, [_] => ([], [])
  | i, a :: b :: rest =>
    let next := swIntegrationLoop complete (i + 1) (b :: rest)
    (mergeOut complete i a b :: next.1, ⟨i, a, b⟩ :: next.2)

/-- `_sliding_window_integration` (`output_integrator.py:116-167`): empty
input returns empty output (line 126-127), a single summary is returned
unchanged (line 129-131), otherwise every adjacent pair is merged. -/
def slidingWindowIntegration (complete : Nat → String → String → Option String)
    (interval_summaries : List String) : List String × List MergeCall :=
  match interval_summaries with
  | [] => ([], [])
  | [s] => ([s], [])
  | l => swIntegrationLoop complete 0 l

/-- Structured extraction result of the Completer
(`chunk_analyzer.py:17-20`, pydantic model `PageContent`). -/
structure PageContent where
  has_content : Bool
  knowledge : List String
deriving DecidableEq, Repr

/-- `_save_analysis_result` (`chunk_analyzer.py:109-120`): persist the record
under the key built from the chunk index (file `chunk_{idx:04d}_{depth}.json`),
overwriting any previous record at that key. -/
def saveAnalysisResult (store : Nat → Option ChunkRecord) (chunk_idx : Nat)
    (r : ChunkRecord) : Nat → Option ChunkRecord :=
  fun j => if j = chunk_idx then some r else store j

/-- `analyze_chunk` (`chunk_analyzer.py:41-107`).  `extract` is the
Completer's structured extraction; `.error e` models any raised exception,
answered by the error record of lines 95-102, which is also persisted
(line 105).  On success the record keeps `knowledge` only when
`has_content` (line 81).  The `processing_time`/`depth` fields are
omitted. -/
def analyze_chunk (extract : String → Except String PageContent)
    (store : Nat → Option ChunkRecord) (chunk_text : String) (chunk_idx : Nat) :
    ChunkRecord × (Nat → Option ChunkRecord) :=
  match extract chunk_text with
  | .ok result =>
    let r : ChunkRecord :=
      ⟨chunk_idx, result.has_content,
        if result.has_content then result.knowledge else [], none⟩
    (r, saveAnalysisResult store chunk_idx r)
  | .error e =>
    let r : ChunkRecord := ⟨chunk_idx, false, [], some e⟩
    (r, saveAnalysisResult store chunk_idx r)

/-- Interval-summary storage: pairs of interval number and saved summary
text, modelling the files `interval_summary_{num:03d}.md` written at
`summary_generator.py:95`.  `save_markdown` (`utils.py:101-131`) wraps the
text in a title/timestamp header and a footer; the wrapper affects neither
presence keyed by number nor non-emptiness, so the stored value is the
summary text itself. -/
abbrev SummaryStore := List (Nat × String)

/-- `_save_interval_summary` (`summary_generator.py:80-112`): skip saving
when the summary is empty (line 90-92), else write the file keyed by
`interval_num`. -/
def saveIntervalSummary (store : SummaryStore) (summary : String)
    (interval_num : Nat) : SummaryStore :=
  if summary = "" then store
  else store.filter (fun p => p.1 != interval_num) ++ [(interval_num, summary)]

/-- `generate_interval_summary` (`summary_generator.py:38-78`): empty
knowledge returns `""` without calling the Completer (lines 48-50); a
Completer failure is caught and returns `""` (lines 76-78); on success the
summary is saved and returned. -/
def generate_interval_summary (complete : List String → Option String)
    (store : SummaryStore) (knowledge_points : List String) (interval_num : Nat) :
    String × SummaryStore :=
  if knowledge_points.isEmpty then ("", store)
  else
    match complete knowledge_points with
    | some summary => (summary, saveIntervalSummary store summary interval_num)
    | none => ("", store)

/-- The summary-generation phase of `cli.py:generate_interval_summaries`
(lines 147-175): one `generate_interval_summary` call per knowledge group,
with interval number `idx + 1`; the collected results are re-sorted by `idx`
(line 175), so the returned texts are in group order. -/
def generateIntervalSummariesRun (complete : List String → Option String) :
    SummaryStore → List (List String) → Nat → List String × SummaryStore
  | st, [], _ => ([], st)
  | st, g :: rest, n =>
    let step := generate_interval_summary complete st g n
    let next := generateIntervalSummariesRun complete step.2 rest (n + 1)
    (step.1 :: next.1, next.2)

/-- The error placeholder of `cli.py:168` (`f"摘要生成错误: {str(e)}"`),
appended only when a summary future raises an exception. -/
def summaryErrorPlaceholder (e : String) : String := "摘要生成错误: " ++ e

/-- The interval-summary text as a function of its knowledge group alone
(derived characterization: the store does not influence the returned
text). -/
def expectedSummaryText (complete : List String → Option String)
    (g : List String) : String :=
  if g.isEmpty then ""
  else
    match complete g with
    | some summary => summary
    | none => ""

/-- Insertion into a list sorted by interval number. -/
def insertByNum (p : Nat × String) : SummaryStore → SummaryStore
  | [] => [p]
  | q :: rest => if p.1 ≤ q.1 then p :: q :: rest else q :: insertByNum p rest

/-- Sort the stored files by interval number, modelling the sorted glob of
`output_integrator.py:57-61` (file names are zero-padded, so lexicographic
order on names is numeric order on interval numbers). -/
def sortByNum : SummaryStore → SummaryStore
  | [] => []
  | p :: rest => insertByNum p (sortByNum rest)

/-- The interval-summary reading step of `integrate_output`
(`output_integrator.py:56-66`): the sorted `interval_summary_*` files, the
contents of which are kept when non-empty.  (Interval files are saved
without a depth suffix at `summary_generator.py:95`, so the depth-specific
glob at line 57 finds nothing and the fallback glob of line 61 applies.) -/
def readIntervalSummaries (store : SummaryStore) : List String :=
  ((sortByNum store).map Prod.snd).filter (fun content => content != "")

/-- Python `sep.join(parts)`, as used at `output_integrator.py:308`. -/
def joinParts (sep : String) : List String → String
  | [] => ""
  | [p] => p
  | p :: q :: rest => p ++ sep ++ joinParts sep (q :: rest)

/-- `_assemble_final_content` (`output_integrator.py:253-308`): the document
parts are the title heading (line 269), the toc content (line 286), a
separator (line 288), the introduction (line 291), a separator (line 292),
the content heading (line 295) and then each integrated section followed by
a blank line (lines 298-301); the parts are joined with `"\n\n"`
(line 308).  The meta-summary append of lines 303-305 is commented out in
the source; the parameter is kept to match the Python signature. -/
def assembleFinalContent (base_name toc_content introduction : String)
    (integrated_sections : List String) (meta_summary : String) : String :=
  joinParts "\n\n"
    (["# " ++ base_name ++ " - 阅读分析报告", toc_content, "\n---\n", introduction,
      "\n---\n", "## 内容详解"] ++
      (integrated_sections.map (fun s => [s, "\n"])).join)

/-- The fixed part of the assembled report, before the sections. -/
def reportFixedPart (base_name toc_content introduction : String) : String :=
  "# " ++ base_name ++ " - 阅读分析报告" ++ "\n\n" ++ toc_content ++ "\n\n" ++
    "\n---\n" ++ "\n\n" ++ introduction ++ "\n\n" ++ "\n---\n" ++ "\n\n" ++ "## 内容详解"

/-- The sections part of the assembled report. -/
def reportSectionsPart (integrated_sections : List String) : String :=
  match integrated_sections with
  | [] => ""
  | _ => "\n\n" ++ joinParts "\n\n" ((integrated_sections.map (fun s => [s, "\n"])).join)

/-- The observable stages of `cli.py:main` (lines 178-264), in program
order. -/
inductive PipelineEvent where
  | processDocument
  | loadText
  | extractTocModelCall
  | saveToc
  | splitTextStep
  | analyzeChunksStage
  | intervalSummariesStage
  | metaSummaryStage
  | integrateOutputStage
deriving DecidableEq, Repr

/-- The stage ordering of `cli.py:main` as an event trace: document
processing (line 210), text loading (line 215), TOC extraction — a model
call — and TOC save (lines 221-223), then text splitting (line 227), chunk
analysis (line 232), interval summaries (line 239), meta summary (line 243)
and output integration (line 254).  `split` abstracts
`DocumentProcessor.split_text` (`document_processor.py:106-130`), whose
size/overlap validation happens inside the third-party splitter it
constructs; `none` models a raised exception, which the catch-all handler at
`cli.py:262` turns into a stop after the failing step. -/
def mainTrace (chunk_size chunk_overlap : Nat)
    (split : Nat → Nat → Option (List String)) : List PipelineEvent :=
  [PipelineEvent.processDocument, PipelineEvent.loadText,
   PipelineEvent.extractTocModelCall, PipelineEvent.saveToc] ++
  (match split chunk_size chunk_overlap with
   | some _ => [PipelineEvent.splitTextStep, PipelineEvent.analyzeChunksStage,
       PipelineEvent.intervalSummariesStage, PipelineEvent.metaSummaryStage,
       PipelineEvent.integrateOutputStage]
   | none => [PipelineEvent.splitTextStep])

/-- The test scenario of the spec: 12 chunks with `interval = 5`, where the
3rd and 8th chunks (1-based) have no content and every other chunk carries
exactly one knowledge item. -/
def scenarioTwelveChunks : List ChunkRecord :=
  [⟨0, true, ["k1"], none⟩, ⟨1, true, ["k2"], none⟩, ⟨2, false, [], none⟩,
   ⟨3, true, ["k4"], none⟩, ⟨4, true, ["k5"], none⟩, ⟨5, true, ["k6"], none⟩,
   ⟨6, true, ["k7"], none⟩, ⟨7, false, [], none⟩, ⟨8, true, ["k9"], none⟩,
   ⟨9, true, ["k10"], none⟩, ⟨10, true, ["k11"], none⟩, ⟨11, true, ["k12"], none⟩]

end AiBookReader

namespace AiBookReader

theorem intervalGroupsAux_length_eq (k T : Nat) :
    ∀ (rs : List ChunkRecord) (i : Nat) (acc : List String),
      (intervalGroupsAux k T rs i acc).length = nonemptyFlushCountAux k T rs i acc := by
  intro rs
  induction rs with
  | nil => intro i acc; rfl
  | cons r rest ih =>
    intro i acc
    simp only [intervalGroupsAux, nonemptyFlushCountAux]
    by_cases h : flushAt T k i
    · simp only [h, if_true, List.length_append]
      by_cases h2 : (if r.has_content then acc ++ r.knowledge else acc).isEmpty
      · simp [h2, ih]
      · simp [h2, ih]
    · simp [h, ih]

theorem mem_ite_nil_singleton {g x : List String}
    (hg : g ∈ (if x.isEmpty then ([] : List (List String)) else [x])) : g ≠ [] := by
  by_cases h : x.isEmpty
  · rw [if_pos h] at hg; cases hg
  · rw [if_neg h] at hg
    rcases List.mem_singleton.1 hg with rfl
    intro hnil
    rw [hnil] at h
    exact h rfl

theorem intervalGroupsAux_ne_nil (k T : Nat) :
    ∀ (rs : List ChunkRecord) (i : Nat) (acc : List String) (g : List String),
      g ∈ intervalGroupsAux k T rs i acc → g ≠ [] := by
  intro rs
  induction rs with
  | nil => intro i acc g hg; simp [intervalGroupsAux] at hg
  | cons r rest ih =>
    intro i acc g hg
    simp only [intervalGroupsAux] at hg
    by_cases h : flushAt T k i
    · simp only [h, if_true, List.mem_append] at hg
      rcases hg with hg | hg
      · exact mem_ite_nil_singleton hg
      · exact ih (i + 1) [] g hg
    · simp only [h, if_false] at hg
      exact ih (i + 1) _ g hg

theorem nonemptyFlushCountAux_le (k T : Nat) :
    ∀ (rs : List ChunkRecord) (i : Nat) (acc : List String),
      nonemptyFlushCountAux k T rs i acc ≤
        ((List.range' i rs.length).filter (fun j => flushAt T k j)).length := by
  intro rs
  induction rs with
  | nil => intro i acc; simp [nonemptyFlushCountAux]
  | cons r rest ih =>
    intro i acc
    have hr : List.range' i (r :: rest).length = i :: List.range' (i + 1) rest.length := rfl
    rw [hr]
    simp only [nonemptyFlushCountAux]
    generalize (if r.has_content then acc ++ r.knowledge else acc) = acc2
    by_cases h : flushAt T k i
    · simp only [h, if_true, List.filter_cons, List.length_cons]
      have hone : (if acc2.isEmpty then 0 else 1) ≤ 1 := by
        split <;> omega
      have hrec := ih (i + 1) []
      omega
    · simp only [h, List.filter_cons, Bool.false_eq_true, if_false]
      exact ih (i + 1) _

theorem length_filter_range_mod (k : Nat) :
    ∀ n : Nat, ((List.range n).filter (fun i => (i + 1) % k == 0)).length = n / k := by
  intro n
  induction n with
  | zero => simp
  | succ m ih =>
    rw [List.range_succ, List.filter_append, List.length_append, ih, Nat.succ_div]
    by_cases h : (m + 1) % k = 0
    · have hdvd : k ∣ m + 1 := (Nat.dvd_iff_mod_eq_zero).2 h
      simp [h, hdvd]
    · have hdvd : ¬ k ∣ m + 1 := fun hd => h ((Nat.dvd_iff_mod_eq_zero).1 hd)
      simp [h, hdvd]

theorem flushPositions_length (T k : Nat) (hT : 1 ≤ T) (hk : 1 ≤ k) :
    (flushPositions T k).length = (T + k - 1) / k := by
  obtain ⟨m, rfl⟩ : ∃ m, T = m + 1 := ⟨T - 1, by omega⟩
  unfold flushPositions
  rw [List.range_succ, List.filter_append]
  have h1 : (List.range m).filter (fun i => flushAt (m + 1) k i) =
      (List.range m).filter (fun i => (i + 1) % k == 0) := by
    apply List.filter_congr
    intro i hi
    have him : i < m := List.mem_range.1 hi
    have : (i == m) = false := by simp; omega
    simp [flushAt, this]
  have h2 : [m].filter (fun i => flushAt (m + 1) k i) = [m] := by
    simp [flushAt]
  rw [h1, h2, List.length_append, length_filter_range_mod k m]
  have : m + 1 + k - 1 = m + k := by omega
  rw [this, Nat.add_div_right m (by omega)]
  simp

theorem mem_flushPositions (T k i : Nat) :
    i ∈ flushPositions T k ↔ i < T ∧ ((i + 1) % k = 0 ∨ i = T - 1) := by
  simp [flushPositions, flushAt, List.mem_filter, List.mem_range]

/-- Claim C1: for every list of `T ≥ 1` chunk records processed in ascending
index order with summary interval `k ≥ 1`, a flush is evaluated exactly at the
0-based positions `i` with `(i + 1) % k = 0` or `i = T - 1`, so the number of
flush points is `⌈T/k⌉ = (T + k - 1) / k`; the number of materialized interval
groups equals the number of flush points at which the accumulated knowledge is
non-empty, hence is at most `⌈T/k⌉`. -/
theorem flush_points_count_and_group_bound (chunks_results : List ChunkRecord) (k : Nat)
    (hT : chunks_results ≠ []) (hk : 1 ≤ k) :
    (∀ i, i ∈ flushPositions chunks_results.length k ↔
        i < chunks_results.length ∧ ((i + 1) % k = 0 ∨ i = chunks_results.length - 1))
    ∧ (flushPositions chunks_results.length k).length = (chunks_results.length + k - 1) / k
    ∧ (intervalGroups chunks_results k).length = nonemptyFlushCount chunks_results k
    ∧ (intervalGroups chunks_results k).length ≤ (chunks_results.length + k - 1) / k := by
  have hT1 : 1 ≤ chunks_results.length := List.length_pos.2 hT
  refine ⟨fun i => mem_flushPositions _ _ _, flushPositions_length _ _ hT1 hk, ?_, ?_⟩
  · exact intervalGroupsAux_length_eq k _ chunks_results 0 []
  · calc (intervalGroups chunks_results k).length
        = nonemptyFlushCountAux k chunks_results.length chunks_results 0 [] :=
          intervalGroupsAux_length_eq k _ chunks_results 0 []
      _ ≤ ((List.range' 0 chunks_results.length).filter
            (fun j => flushAt chunks_results.length k j)).length :=
          nonemptyFlushCountAux_le k _ chunks_results 0 []
      _ = (flushPositions chunks_results.length k).length := by
          rw [flushPositions, List.range_eq_range']
      _ = (chunks_results.length + k - 1) / k := flushPositions_length _ _ hT1 hk

theorem flush_points_count_and_group_bound_witness :
    ([(⟨0, true, ["a"], none⟩ : ChunkRecord), ⟨1, true, ["b"], none⟩, ⟨2, false, [], none⟩] ≠ [])
    ∧ 1 ≤ 2
    ∧ (intervalGroups [⟨0, true, ["a"], none⟩, ⟨1, true, ["b"], none⟩, ⟨2, false, [], none⟩] 2).length ≤
        (([(⟨0, true, ["a"], none⟩ : ChunkRecord), ⟨1, true, ["b"], none⟩, ⟨2, false, [], none⟩]).length + 2 - 1) / 2 :=
  ⟨by decide, by decide,
    (flush_points_count_and_group_bound
      [⟨0, true, ["a"], none⟩, ⟨1, true, ["b"], none⟩, ⟨2, false, [], none⟩] 2
      (by decide) (by decide)).2.2.2⟩

/-- Claim C2: interval numbers are assigned sequentially starting at 1, in
order, only to the materialized (non-empty) groups; a flush that finds an
empty accumulator closes no group and consumes no interval number (every
group in `intervalGroups` is non-empty, and the numbers attached by
`cli.py:156-157` are exactly `1, 2, …` over that list). -/
theorem interval_numbers_sequential (chunks_results : List ChunkRecord) (k : Nat) :
    (intervalNumbers chunks_results k).map Prod.fst =
      (List.range (intervalGroups chunks_results k).length).map (· + 1)
    ∧ ∀ g ∈ intervalGroups chunks_results k, g ≠ [] := by
  constructor
  · rw [intervalNumbers, List.map_map]
    have hcomp : (Prod.fst ∘ fun p : Nat × List String => (p.1 + 1, p.2)) =
        (fun x => x + 1) ∘ Prod.fst := rfl
    rw [hcomp, ← List.map_map, List.enum_map_fst]
  · intro g hg
    exact intervalGroupsAux_ne_nil k _ chunks_results 0 [] g hg

theorem interval_numbers_sequential_witness :
    ((intervalNumbers [(⟨0, true, ["a"], none⟩ : ChunkRecord)] 1).map Prod.fst =
      (List.range (intervalGroups [(⟨0, true, ["a"], none⟩ : ChunkRecord)] 1).length).map (· + 1))
    ∧ (["a"] ≠ ([] : List String)) :=
  ⟨(interval_numbers_sequential [⟨0, true, ["a"], none⟩] 1).1,
   (interval_numbers_sequential [⟨0, true, ["a"], none⟩] 1).2 ["a"] (by decide)⟩

/-- Claim C3: with `interval = 5` and 12 chunk records where the 3rd and 8th
(1-based) have no content and every other record has exactly one knowledge
item, the aggregation flushes after chunks 5, 10 and 12 (0-based positions
4, 9, 11), and produces exactly three groups: chunks 1,2,4,5 (4 items),
chunks 6,7,9,10 (4 items) and chunks 11,12 (2 items), numbered 1, 2, 3. -/
theorem twelve_chunk_scenario :
    flushPositions 12 5 = [4, 9, 11]
    ∧ intervalGroups scenarioTwelveChunks 5 =
        [["k1", "k2", "k4", "k5"], ["k6", "k7", "k9", "k10"], ["k11", "k12"]]
    ∧ (intervalGroups scenarioTwelveChunks 5).map List.length = [4, 4, 2]
    ∧ intervalNumbers scenarioTwelveChunks 5 =
        [(1, ["k1", "k2", "k4", "k5"]), (2, ["k6", "k7", "k9", "k10"]), (3, ["k11", "k12"])] := by
  decide

theorem swIntegrationLoop_eq (complete : Nat → String → String → Option String) :
    ∀ (l : List String) (i : Nat),
      swIntegrationLoop complete i l =
        ((List.enumFrom i (l.zip l.tail)).map (fun p => mergeOut complete p.1 p.2.1 p.2.2),
         (List.enumFrom i (l.zip l.tail)).map (fun p => (⟨p.1, p.2.1, p.2.2⟩ : MergeCall))) := by
  intro l
  induction l with
  | nil => intro i; rfl
  | cons a rest ih =>
    intro i
    cases rest with
    | nil => rfl
    | cons b rest2 =>
      show (mergeOut complete i a b :: (swIntegrationLoop complete (i + 1) (b :: rest2)).1,
            (⟨i, a, b⟩ : MergeCall) :: (swIntegrationLoop complete (i + 1) (b :: rest2)).2) = _
      rw [ih (i + 1)]
      rfl

theorem slidingWindowIntegration_eq_loop (complete : Nat → String → String → Option String)
    (l : List String) (h2 : 2 ≤ l.length) :
    slidingWindowIntegration complete l = swIntegrationLoop complete 0 l := by
  cases l with
  | nil => simp at h2
  | cons a rest =>
    cases rest with
    | nil => simp at h2
    | cons b rest2 => rfl

theorem countP_range_eqIdx (j : Nat) :
    ∀ m : Nat, (List.range m).countP (fun i => i == j) = if j < m then 1 else 0 := by
  intro m
  induction m with
  | zero => simp
  | succ m ih =>
    rw [List.range_succ, List.countP_append, ih]
    have h1 : (List.countP (fun i => i == j) [m]) = if m = j then 1 else 0 := by
      simp [List.countP_cons]
    rw [h1]
    by_cases h : m = j
    · subst h; simp
    · by_cases h2 : j < m
      · have h3 : j < m + 1 := by omega
        simp [h, h2, h3]
      · have h3 : ¬ j < m + 1 := by omega
        simp [h, h2, h3]

theorem countP_range_succIdx (j m : Nat) :
    (List.range m).countP (fun i => i + 1 == j) = if 1 ≤ j ∧ j - 1 < m then 1 else 0 := by
  cases j with
  | zero => simp
  | succ jj =>
    have hcong : List.countP (fun i => i + 1 == jj + 1) (List.range m) =
        List.countP (fun i => i == jj) (List.range m) := by
      apply List.countP_congr
      intro i _
      simp only [beq_iff_eq]
      omega
    rw [hcong, countP_range_eqIdx jj m]
    by_cases h : jj < m <;> simp [h]

theorem countP_or_split (p q : Nat → Bool) (hdisj : ∀ i, ¬(p i = true ∧ q i = true)) :
    ∀ l : List Nat, l.countP (fun i => p i || q i) = l.countP p + l.countP q := by
  intro l
  induction l with
  | nil => simp
  | cons a l ih =>
    rw [List.countP_cons, List.countP_cons, List.countP_cons, ih]
    cases hp : p a
    · cases hq : q a
      · simp [hp, hq]
      · simp [hp, hq]; omega
    · cases hq : q a
      · simp [hp, hq]; omega
      · exact absurd ⟨hp, hq⟩ (hdisj a)

theorem countP_range_adjacentPair (n j : Nat) (hn : 2 ≤ n) (hj : j < n) :
    (List.range (n - 1)).countP (fun i => i == j || i + 1 == j) =
      if j = 0 ∨ j = n - 1 then 1 else 2 := by
  rw [countP_or_split _ _ (by intro i; simp only [beq_iff_eq]; omega),
    countP_range_eqIdx j (n - 1), countP_range_succIdx j (n - 1)]
  split_ifs <;> omega

/-- Claim C4: for every input list of interval summaries, the sliding-window
integrator returns the empty sequence with zero Completer calls on empty
input; the single input text unchanged with zero Completer calls on a
singleton; and for length `n ≥ 2` exactly `n - 1` merged texts in ascending
pair order, produced by exactly the `n - 1` merge calls on the adjacent pairs
`(i, i+1)`, so each interior summary position participates in exactly two
merge calls and the first and last positions in exactly one each. -/
theorem sliding_window_structure (complete : Nat → String → String → Option String)
    (interval_summaries : List String) :
    (interval_summaries = [] → slidingWindowIntegration complete interval_summaries = ([], []))
    ∧ (∀ s, interval_summaries = [s] →
        slidingWindowIntegration complete interval_summaries = ([s], []))
    ∧ (2 ≤ interval_summaries.length →
        (slidingWindowIntegration complete interval_summaries).1 =
          (List.enumFrom 0 (interval_summaries.zip interval_summaries.tail)).map
            (fun p => mergeOut complete p.1 p.2.1 p.2.2)
        ∧ (slidingWindowIntegration complete interval_summaries).2 =
          (List.enumFrom 0 (interval_summaries.zip interval_summaries.tail)).map
            (fun p => (⟨p.1, p.2.1, p.2.2⟩ : MergeCall))
        ∧ (slidingWindowIntegration complete interval_summaries).1.length =
            interval_summaries.length - 1
        ∧ (slidingWindowIntegration complete interval_summaries).2.length =
            interval_summaries.length - 1
        ∧ ∀ j, j < interval_summaries.length →
            ((slidingWindowIntegration complete interval_summaries).2.filter
              (fun c => c.pairIdx == j || c.pairIdx + 1 == j)).length =
              if j = 0 ∨ j = interval_summaries.length - 1 then 1 else 2) := by
  refine ⟨fun h => by subst h; rfl, fun s h => by subst h; rfl, fun h2 => ?_⟩
  have hloop := slidingWindowIntegration_eq_loop complete interval_summaries h2
  have heq := swIntegrationLoop_eq complete interval_summaries 0
  have hzlen : (interval_summaries.zip interval_summaries.tail).length =
      interval_summaries.length - 1 := by
    rw [List.length_zip interval_summaries interval_summaries.tail,
      List.length_tail interval_summaries]
    omega
  refine ⟨?_, ?_, ?_, ?_, ?_⟩
  · rw [hloop, heq]
  · rw [hloop, heq]
  · rw [hloop, heq]
    simp [List.enumFrom_length, hzlen]
  · rw [hloop, heq]
    simp [List.enumFrom_length, hzlen]
  · intro j hj
    rw [hloop, heq]
    rw [← List.countP_eq_length_filter, List.countP_map]
    show List.countP ((fun i => i == j || i + 1 == j) ∘ Prod.fst)
        (List.enumFrom 0 (interval_summaries.zip interval_summaries.tail)) = _
    rw [← List.countP_map, List.enumFrom_map_fst, ← List.range_eq_range', hzlen]
    exact countP_range_adjacentPair interval_summaries.length j h2 hj

theorem sliding_window_structure_witness :
    (slidingWindowIntegration (fun _ _ _ => some "M") ["A", "B", "C"]).1.length =
      (["A", "B", "C"] : List String).length - 1
    ∧ (slidingWindowIntegration (fun _ _ _ => some "M") ["A", "B", "C"]).2.length =
      (["A", "B", "C"] : List String).length - 1
    ∧ ((slidingWindowIntegration (fun _ _ _ => some "M") ["A", "B", "C"]).2.filter
        (fun c => c.pairIdx == 1 || c.pairIdx + 1 == 1)).length =
      if 1 = 0 ∨ 1 = (["A", "B", "C"] : List String).length - 1 then 1 else 2 := by
  have h := (sliding_window_structure (fun _ _ _ => some "M") ["A", "B", "C"]).2.2 (by decide)
  exact ⟨h.2.2.1, h.2.2.2.1, h.2.2.2.2 1 (by decide)⟩

/-- Claim C5: if the Completer call for adjacent pair `(i, i+1)` fails, the
integrator does not raise: output position `i` is the deterministic fallback
concatenation, which contains both original summaries' full text, and the
remaining pairs are still processed (all `n - 1` outputs and calls occur). -/
theorem sliding_window_fallback_no_data_loss
    (complete : Nat → String → String → Option String)
    (interval_summaries : List String) (i : Nat) (a b : String)
    (hpair : (interval_summaries.zip interval_summaries.tail).get? i = some (a, b))
    (hfail : complete i a b = none) :
    (slidingWindowIntegration complete interval_summaries).1.get? i =
      some (fallbackMerge i a b)
    ∧ a.data <:+: (fallbackMerge i a b).data
    ∧ b.data <:+: (fallbackMerge i a b).data
    ∧ (slidingWindowIntegration complete interval_summaries).1.length =
        interval_summaries.length - 1
    ∧ (slidingWindowIntegration complete interval_summaries).2.length =
        interval_summaries.length - 1 := by
  have hlen2 : 2 ≤ interval_summaries.length := by
    have hlt : ¬ (interval_summaries.zip interval_summaries.tail).length ≤ i := by
      intro hle
      rw [List.get?_eq_none.2 hle] at hpair
      cases hpair
    rw [List.length_zip interval_summaries interval_summaries.tail,
      List.length_tail interval_summaries] at hlt
    omega
  have hloop := slidingWindowIntegration_eq_loop complete interval_summaries hlen2
  have heq := swIntegrationLoop_eq complete interval_summaries 0
  have hzlen : (interval_summaries.zip interval_summaries.tail).length =
      interval_summaries.length - 1 := by
    rw [List.length_zip interval_summaries interval_summaries.tail,
      List.length_tail interval_summaries]
    omega
  refine ⟨?_, ?_, ?_, ?_, ?_⟩
  · rw [hloop, heq]
    rw [List.get?_map, List.enumFrom_get?, hpair]
    simp [mergeOut, hfail]
  · refine ⟨("## 区间 " ++ toString (i + 1) ++ " 到 " ++ toString (i + 2) ++ " 的内容\n\n").data,
      ("\n\n---\n\n" ++ b).data, ?_⟩
    simp [fallbackMerge, String.data_append, List.append_assoc]
  · refine ⟨("## 区间 " ++ toString (i + 1) ++ " 到 " ++ toString (i + 2) ++ " 的内容\n\n" ++
      a ++ "\n\n---\n\n").data, [], ?_⟩
    simp [fallbackMerge, String.data_append, List.append_assoc]
  · rw [hloop, heq]
    simp [List.enumFrom_length, hzlen]
  · rw [hloop, heq]
    simp [List.enumFrom_length, hzlen]

theorem sliding_window_fallback_witness :
    (slidingWindowIntegration (fun _ _ _ => none) ["A", "B"]).1.get? 0 =
      some (fallbackMerge 0 "A" "B")
    ∧ ("A" : String).data <:+: (fallbackMerge 0 "A" "B").data
    ∧ ("B" : String).data <:+: (fallbackMerge 0 "A" "B").data
    ∧ (slidingWindowIntegration (fun _ _ _ => none) ["A", "B"]).1.length =
        (["A", "B"] : List String).length - 1
    ∧ (slidingWindowIntegration (fun _ _ _ => none) ["A", "B"]).2.length =
        (["A", "B"] : List String).length - 1 :=
  sliding_window_fallback_no_data_loss (fun _ _ _ => none) ["A", "B"] 0 "A" "B" rfl rfl

/-- Claim C7: if the Completer extraction fails for any reason,
`analyze_chunk` returns — and persists keyed by the chunk's index — a record
with `has_content = false`, empty knowledge and the error populated,
propagating no exception (the embedding is a total function); moreover every
record it produces carries the chunk's index, is persisted under that index,
and satisfies `has_content = false → knowledge = []`. -/
theorem analyze_chunk_error_recovery (extract : String → Except String PageContent)
    (store : Nat → Option ChunkRecord) (chunk_text : String) (chunk_idx : Nat) :
    (∀ e, extract chunk_text = .error e →
      (analyze_chunk extract store chunk_text chunk_idx).1 =
        ⟨chunk_idx, false, [], some e⟩)
    ∧ ((analyze_chunk extract store chunk_text chunk_idx).2 chunk_idx =
        some (analyze_chunk extract store chunk_text chunk_idx).1)
    ∧ ((analyze_chunk extract store chunk_text chunk_idx).1.has_content = false →
        (analyze_chunk extract store chunk_text chunk_idx).1.knowledge = [])
    ∧ (analyze_chunk extract store chunk_text chunk_idx).1.chunk_idx = chunk_idx := by
  cases hx : extract chunk_text with
  | ok result =>
    refine ⟨?_, ?_, ?_, ?_⟩
    · intro e he
      simp at he
    · unfold analyze_chunk
      rw [hx]
      simp [saveAnalysisResult]
    · unfold analyze_chunk
      rw [hx]
      intro h
      simp at h
      simp [h]
    · unfold analyze_chunk
      rw [hx]
  | error e =>
    refine ⟨?_, ?_, ?_, ?_⟩
    · intro e2 he2
      injection he2 with h
      subst h
      unfold analyze_chunk
      rw [hx]
    · unfold analyze_chunk
      rw [hx]
      simp [saveAnalysisResult]
    · unfold analyze_chunk
      rw [hx]
      intro _
      rfl
    · unfold analyze_chunk
      rw [hx]

theorem analyze_chunk_error_recovery_witness :
    (analyze_chunk (fun _ => Except.error "boom") (fun _ => none) "text" 3).1 =
      (⟨3, false, [], some "boom"⟩ : ChunkRecord)
    ∧ (analyze_chunk (fun _ => Except.error "boom") (fun _ => none) "text" 3).2 3 =
        some (analyze_chunk (fun _ => Except.error "boom") (fun _ => none) "text" 3).1 :=
  ⟨(analyze_chunk_error_recovery (fun _ => Except.error "boom") (fun _ => none) "text" 3).1
      "boom" rfl,
   (analyze_chunk_error_recovery (fun _ => Except.error "boom") (fun _ => none) "text" 3).2.1⟩

/-- Claim C10: whenever the generated interval summary text is empty — in
particular whenever the knowledge list is empty and whenever the Completer
call fails — no interval-summary artifact is written to storage (the store
is unchanged), and hence the sliding-window input that `integrate_output`
builds from the stored files is exactly as if that interval never
existed. -/
theorem empty_summary_not_persisted (complete : List String → Option String)
    (store : SummaryStore) (knowledge_points : List String) (interval_num : Nat) :
    ((generate_interval_summary complete store knowledge_points interval_num).1 = "" →
      (generate_interval_summary complete store knowledge_points interval_num).2 = store)
    ∧ (knowledge_points = [] →
        generate_interval_summary complete store knowledge_points interval_num = ("", store))
    ∧ (complete knowledge_points = none →
        generate_interval_summary complete store knowledge_points interval_num = ("", store))
    ∧ ((generate_interval_summary complete store knowledge_points interval_num).1 = "" →
        readIntervalSummaries
          (generate_interval_summary complete store knowledge_points interval_num).2 =
          readIntervalSummaries store) := by
  have hmain :
      ((generate_interval_summary complete store knowledge_points interval_num).1 = "" →
        (generate_interval_summary complete store knowledge_points interval_num).2 = store) := by
    unfold generate_interval_summary
    by_cases hk : knowledge_points.isEmpty
    · simp [hk]
    · simp only [hk, Bool.false_eq_true, if_false]
      cases hc : complete knowledge_points with
      | none => intro _; rfl
      | some s =>
        intro hs
        simp only at hs
        subst hs
        simp [saveIntervalSummary]
  refine ⟨hmain, ?_, ?_, fun h => by rw [hmain h]⟩
  · intro hnil
    subst hnil
    rfl
  · intro hc
    unfold generate_interval_summary
    by_cases hk : knowledge_points.isEmpty
    · simp [hk]
    · simp [hk, hc]

theorem empty_summary_not_persisted_witness :
    generate_interval_summary (fun _ => none) [] ["k"] 1 = ("", [])
    ∧ readIntervalSummaries (generate_interval_summary (fun _ => none) [] ["k"] 1).2 =
        readIntervalSummaries [] :=
  ⟨(empty_summary_not_persisted (fun _ => none) [] ["k"] 1).2.2.1 rfl,
   (empty_summary_not_persisted (fun _ => none) [] ["k"] 1).2.2.2 rfl⟩

/-- Claim C6 counterexample: for a materialized (non-empty) group whose
Completer call fails, the resulting interval summary text is the empty
string, which is not of the error-placeholder form built at `cli.py:168`
(that except-branch is unreachable for Completer failures, because
`generate_interval_summary` catches them internally and returns `""`). -/
theorem summary_failure_empty_counterexample :
    (generate_interval_summary (fun _ => none) [] ["k1"] 1).1 = ""
    ∧ ¬ ∃ e : String,
        (generate_interval_summary (fun _ => none) [] ["k1"] 1).1 =
          summaryErrorPlaceholder e := by
  refine ⟨rfl, ?_⟩
  rintro ⟨e, he⟩
  have he2 : "" = summaryErrorPlaceholder e := he
  have hlen : (summaryErrorPlaceholder e).length = 0 := by
    rw [← he2]
    rfl
  unfold summaryErrorPlaceholder at hlen
  rw [String.length_append] at hlen
  have h8 : ("摘要生成错误: " : String).length = 8 := rfl
  omega

/-- Claim C6 (amended): for every run of interval-summary generation, the
text produced for each group is a function of that group alone
(`expectedSummaryText`), so a group whose Completer call fails yields the
empty string while every other group still yields its own summary, one text
per group — the failure neither blocks the summaries of other groups nor
aborts the pipeline. -/
theorem summary_failure_isolated (complete : List String → Option String) :
    ∀ (groups : List (List String)) (store : SummaryStore) (n : Nat),
      ((generateIntervalSummariesRun complete store groups n).1 =
        groups.map (expectedSummaryText complete))
      ∧ (∀ g, g ≠ [] → complete g = none → expectedSummaryText complete g = "") := by
  have htext : ∀ (st : SummaryStore) (g : List String) (n : Nat),
      (generate_interval_summary complete st g n).1 = expectedSummaryText complete g := by
    intro st g n
    unfold generate_interval_summary expectedSummaryText
    by_cases hg : g.isEmpty
    · simp [hg]
    · simp only [hg, Bool.false_eq_true, if_false]
      cases complete g <;> rfl
  intro groups
  induction groups with
  | nil =>
    intro store n
    refine ⟨rfl, ?_⟩
    intro g _ hc
    unfold expectedSummaryText
    rw [hc]
    split <;> rfl
  | cons g rest ih =>
    intro store n
    refine ⟨?_, (ih store n).2⟩
    show (generate_interval_summary complete store g n).1 ::
        (generateIntervalSummariesRun complete
          (generate_interval_summary complete store g n).2 rest (n + 1)).1 = _
    rw [htext store g n,
      (ih (generate_interval_summary complete store g n).2 (n + 1)).1]
    rfl

theorem summary_failure_isolated_witness :
    ((generateIntervalSummariesRun (fun _ => none) [] [["k1"], ["k2"]] 1).1 =
      ([["k1"], ["k2"]] : List (List String)).map (expectedSummaryText (fun _ => none)))
    ∧ expectedSummaryText (fun _ => none) ["k1"] = "" :=
  ⟨(summary_failure_isolated (fun _ => none) [["k1"], ["k2"]] [] 1).1,
   (summary_failure_isolated (fun _ => none) [["k1"], ["k2"]] [] 1).2 ["k1"]
     (by decide) rfl⟩

theorem joinParts_append_cons (sep x : String) (l2 : List String) :
    ∀ l1 : List String, l1 ≠ [] →
      joinParts sep (l1 ++ x :: l2) = joinParts sep l1 ++ sep ++ joinParts sep (x :: l2) := by
  intro l1
  induction l1 with
  | nil => intro h; exact absurd rfl h
  | cons p rest ih =>
    intro _
    cases rest with
    | nil => rfl
    | cons q rest2 =>
      show p ++ sep ++ joinParts sep ((q :: rest2) ++ x :: l2) = _
      rw [ih (List.cons_ne_nil q rest2)]
      simp [joinParts, String.append_assoc]

theorem mem_joinParts_infix (sep : String) :
    ∀ (l : List String) (s : String), s ∈ l → s.data <:+: (joinParts sep l).data := by
  intro l
  induction l with
  | nil => intro s hs; cases hs
  | cons p rest ih =>
    intro s hs
    cases rest with
    | nil =>
      rcases List.mem_singleton.1 hs with rfl
      exact List.infix_refl _
    | cons q rest2 =>
      rcases List.mem_cons.1 hs with h | h
      · subst h
        refine ⟨[], (sep ++ joinParts sep (q :: rest2)).data, ?_⟩
        simp [joinParts, String.data_append, List.append_assoc]
      · have hij := ih s h
        have hsub : (joinParts sep (q :: rest2)).data <:+:
            (joinParts sep (p :: q :: rest2)).data := by
          refine ⟨(p ++ sep).data, [], ?_⟩
          simp [joinParts, String.data_append, List.append_assoc]
        exact hij.trans hsub

/-- Claim C8 counterexample: at a concrete input the assembled final report
does not contain the meta-summary text (its append is commented out at
`output_integrator.py:303-305`), refuting the claim that the report contains
all four components. -/
theorem report_missing_meta_counterexample :
    ¬ (("QZ" : String).data <:+:
        (assembleFinalContent "b" "T" "I" ["S"] "QZ").data) := by
  decide

/-- Claim C8 (amended): the assembled final report contains, in order, the
title heading, the table-of-contents text, the generated introduction and
the integrated sections — the fixed prefix followed by the sections part —
but not the meta-summary: the output does not depend on the `meta_summary`
argument. -/
theorem report_assembly_contents (base_name toc_content introduction : String)
    (integrated_sections : List String) (meta_summary : String) :
    (assembleFinalContent base_name toc_content introduction integrated_sections
        meta_summary =
      reportFixedPart base_name toc_content introduction ++
        reportSectionsPart integrated_sections)
    ∧ toc_content.data <:+: (assembleFinalContent base_name toc_content introduction
        integrated_sections meta_summary).data
    ∧ introduction.data <:+: (assembleFinalContent base_name toc_content introduction
        integrated_sections meta_summary).data
    ∧ (∀ s, s ∈ integrated_sections →
        s.data <:+: (assembleFinalContent base_name toc_content introduction
          integrated_sections meta_summary).data)
    ∧ (∀ m2, assembleFinalContent base_name toc_content introduction integrated_sections m2 =
        assembleFinalContent base_name toc_content introduction integrated_sections
          meta_summary) := by
  refine ⟨?_, ?_, ?_, ?_, fun m2 => rfl⟩
  · apply String.ext
    cases integrated_sections with
    | nil =>
      simp [assembleFinalContent, reportFixedPart, reportSectionsPart, joinParts,
        String.data_append, List.append_assoc]
    | cons s rest =>
      simp [assembleFinalContent, reportFixedPart, reportSectionsPart, joinParts,
        String.data_append, List.append_assoc]
  · apply mem_joinParts_infix
    simp
  · apply mem_joinParts_infix
    simp
  · intro s hs
    apply mem_joinParts_infix
    refine List.mem_append_right _ ?_
    refine List.mem_join.2 ⟨[s, "\n"], ?_, ?_⟩
    · exact List.mem_map.2 ⟨s, hs, rfl⟩
    · simp

theorem report_assembly_contents_witness :
    ("T" : String).data <:+: (assembleFinalContent "b" "T" "I" ["S"] "M").data
    ∧ ("S" : String).data <:+: (assembleFinalContent "b" "T" "I" ["S"] "M").data
    ∧ assembleFinalContent "b" "T" "I" ["S"] "M2" = assembleFinalContent "b" "T" "I" ["S"] "M" :=
  ⟨(report_assembly_contents "b" "T" "I" ["S"] "M").2.1,
   (report_assembly_contents "b" "T" "I" ["S"] "M").2.2.2.1 "S" (by decide),
   (report_assembly_contents "b" "T" "I" ["S"] "M").2.2.2.2 "M2"⟩

/-- Claim C9 counterexample: with `chunk_size = chunk_overlap = 5` (overlap ≥
size) and a splitter that rejects the configuration, the run still performs
the TOC-extraction model call, and performs it before the splitting step —
it does not abort before model calls start (no `ConfigError` type exists in
the code; any rejection arises inside `split_text`). -/
theorem invalid_config_counterexample :
    PipelineEvent.extractTocModelCall ∈ mainTrace 5 5 (fun _ _ => none)
    ∧ (mainTrace 5 5 (fun _ _ => none)).indexOf PipelineEvent.extractTocModelCall <
        (mainTrace 5 5 (fun _ _ => none)).indexOf PipelineEvent.splitTextStep := by
  decide

/-- Claim C9 (amended): the size/overlap configuration is not validated up
front: for every `chunk_size`, `chunk_overlap` and splitter behavior, the
run first performs document processing, text loading, the TOC-extraction
model call and the TOC save, and only then attempts splitting; when the
splitter rejects the configuration (an exception caught at `cli.py:262`),
the run stops there — chunk analysis, interval summaries, meta-summary and
integration never run. -/
theorem invalid_config_aborts_after_toc (chunk_size chunk_overlap : Nat)
    (split : Nat → Nat → Option (List String)) :
    ((mainTrace chunk_size chunk_overlap split).take 5 =
      [PipelineEvent.processDocument, PipelineEvent.loadText,
       PipelineEvent.extractTocModelCall, PipelineEvent.saveToc,
       PipelineEvent.splitTextStep])
    ∧ (split chunk_size chunk_overlap = none →
        mainTrace chunk_size chunk_overlap split =
          [PipelineEvent.processDocument, PipelineEvent.loadText,
           PipelineEvent.extractTocModelCall, PipelineEvent.saveToc,
           PipelineEvent.splitTextStep]
        ∧ PipelineEvent.analyzeChunksStage ∉ mainTrace chunk_size chunk_overlap split
        ∧ PipelineEvent.intervalSummariesStage ∉ mainTrace chunk_size chunk_overlap split
        ∧ PipelineEvent.integrateOutputStage ∉ mainTrace chunk_size chunk_overlap split) := by
  constructor
  · unfold mainTrace
    cases split chunk_size chunk_overlap <;> rfl
  · intro hn
    unfold mainTrace
    rw [hn]
    refine ⟨rfl, ?_, ?_, ?_⟩ <;> decide

theorem invalid_config_aborts_witness :
    mainTrace 10 10 (fun _ _ => none) =
      [PipelineEvent.processDocument, PipelineEvent.loadText,
       PipelineEvent.extractTocModelCall, PipelineEvent.saveToc,
       PipelineEvent.splitTextStep]
    ∧ PipelineEvent.analyzeChunksStage ∉ mainTrace 10 10 (fun _ _ => none) :=
  have h := (invalid_config_aborts_after_toc 10 10 (fun _ _ => none)).2 rfl
  ⟨h.1, h.2.1⟩

end AiBookReader
